import Mathlib

/-!
Shallow embedding of the survey repository (src/app.py, src/db.py,
src/api/index.py): the storage backends (PostgreSQL and CSV), the CSV
export formatter, the admin-token store and the HTTP route handlers,
with theorems checking the natural-language specification against them.

Exceptions are modelled with `Except Unit`: `Except.error ()` means a
Python exception escapes the function under consideration.
-/

namespace Survey

/-! ### Python `str.strip()` (whitespace characters per `str.isspace`) -/

/-- Whitespace class used by Python's `str.strip()` (the common members
of the Unicode whitespace class recognised by `str.isspace`). -/
def isPySpace (c : Char) : Bool :=
  c = ' ' || c = '\t' || c = '\n' || c = '\r' || c = '\x0B' || c = '\x0C' ||
  c = '\x1C' || c = '\x1D' || c = '\x1E' || c = '\x1F' || c = '\x85' ||
  c = ' ' || c = ' ' || c = ' ' || c = ' ' || c = ' ' ||
  c = ' ' || c = ' ' || c = ' ' || c = ' ' || c = '　'

/-- `str.strip()` on the character list: drop whitespace from both ends. -/
def pyStripL (l : List Char) : List Char :=
  ((l.dropWhile isPySpace).reverse.dropWhile isPySpace).reverse

/-- Python's `s.strip()`. -/
def pyStrip (s : String) : String :=
  String.mk (pyStripL s.data)

/-! ### CSV writer (Python `csv` module, excel dialect, QUOTE_MINIMAL)

`csv.writer` quotes a field iff it contains the delimiter `,`, the
quote character `"`, or a line-break character; quotes inside a quoted
field are doubled; records are terminated with `\r\n`. -/

/-- Characters that force a field to be quoted under QUOTE_MINIMAL. -/
def isCsvSpecial (c : Char) : Bool :=
  c = ',' || c = '"' || c = '\r' || c = '\n'

/-- Does this field need quoting? -/
def needsQuote (f : List Char) : Bool :=
  f.any isCsvSpecial

/-- Double every quote character (the `doublequote=True` behaviour). -/
def escapeQuotes : List Char → List Char
  | [] => []
  | c :: rest =>
    if c = '"' then '"' :: '"' :: escapeQuotes rest
    else c :: escapeQuotes rest

/-- Render one field: quoted with doubled quotes when needed, verbatim
otherwise. -/
def writeField (f : List Char) : List Char :=
  if needsQuote f then '"' :: (escapeQuotes f ++ ['"']) else f

/-- Join the rendered fields of one record with `,` separators. -/
def joinFields : List (List Char) → List Char
  | [] => []
  | [f] => writeField f
  | f :: f2 :: fs => writeField f ++ ',' :: joinFields (f2 :: fs)

/-- Render one record, terminated by `\r\n` (the default
`lineterminator`). -/
def writeRow (fs : List (List Char)) : List Char :=
  joinFields fs ++ ['\r', '\n']

/-- Render a whole CSV document, one record per `writerow` call. -/
def writeCsv (rows : List (List (List Char))) : List Char :=
  (rows.map writeRow).flatten

/-! ### CSV reader (Python `csv.reader` on well-formed input) -/

/-- Characters ending an unquoted field. -/
def isFieldEnd (c : Char) : Bool :=
  c = ',' || c = '\r' || c = '\n'

/-- Parse the body of a quoted field (the opening quote has been
consumed): a doubled quote is a literal quote, a single quote closes
the field. Returns the field and the unconsumed input. -/
def parseQuoted : List Char → List Char × List Char
  | [] => ([], [])
  | c :: rest =>
    if c = '"' then
      match rest with
      | [] => ([], [])
      | c2 :: rest2 =>
        if c2 = '"' then
          let p := parseQuoted rest2
          ('"' :: p.1, p.2)
        else ([], c2 :: rest2)
    else
      let p := parseQuoted rest
      (c :: p.1, p.2)

/-- Parse an unquoted field: everything up to a delimiter or line break. -/
def parseUnquoted : List Char → List Char × List Char
  | [] => ([], [])
  | c :: rest =>
    if isFieldEnd c then ([], c :: rest)
    else
      let p := parseUnquoted rest
      (c :: p.1, p.2)

/-- Parse one field: quoted iff it starts with the quote character. -/
def parseField (s : List Char) : List Char × List Char :=
  match s with
  | [] => parseUnquoted []
  | c :: rest => if c = '"' then parseQuoted rest else parseUnquoted (c :: rest)

/-- Parse one record (fuelled by the maximal number of fields): fields
separated by `,`, record ended by a line break or the end of input. -/
def parseRecordF : Nat → List Char → List (List Char) × List Char
  | 0, s => ([], s)
  | fuel + 1, s =>
    let p := parseField s
    match p.2 with
    | ',' :: r2 =>
      let q := parseRecordF fuel r2
      (p.1 :: q.1, q.2)
    | '\r' :: '\n' :: r2 => ([p.1], r2)
    | [] => ([p.1], [])
    | _ :: r2 => ([p.1], r2)

/-- Parse one record; `s.length + 1` fuel always suffices since every
field separator consumes a character. -/
def parseRecord (s : List Char) : List (List Char) × List Char :=
  parseRecordF (s.length + 1) s

/-- Parse a CSV document into records (fuelled by the maximal number of
records). -/
def parseCsvF : Nat → List Char → List (List (List Char))
  | 0, _ => []
  | _ + 1, [] => []
  | fuel + 1, c :: rest =>
    let p := parseRecord (c :: rest)
    p.1 :: parseCsvF fuel p.2

/-- Parse a CSV document; `s.length` fuel always suffices since every
record consumes at least one character. -/
def parseCsv (s : List Char) : List (List (List Char)) :=
  parseCsvF s.length s

/-! ### The response record (the only entity)

`FIELDNAMES` order (db.py / api/index.py): 受付日時 = submitted_at,
氏名 = name, 電話番号 = phone, メールアドレス = email, 会社名 = company,
役職 = position, セミナー感想 = comment. -/

structure Response where
  submitted_at : String
  name : String
  phone : String
  email : String
  company : String
  position : String
  comment : String
deriving Repr, DecidableEq

/-- The canonical field list (`FIELDNAMES` in db.py and api/index.py). -/
def FIELDNAMES : List String :=
  ["受付日時", "氏名", "電話番号", "メールアドレス", "会社名", "役職", "セミナー感想"]

/-- The header record of every CSV document this app writes. -/
def headerFields : List (List Char) :=
  FIELDNAMES.map String.data

/-- The values of a record in `FIELDNAMES` order, as `csv.DictWriter`
emits them. -/
def respFields (r : Response) : List (List Char) :=
  [r.submitted_at.data, r.name.data, r.phone.data, r.email.data,
   r.company.data, r.position.data, r.comment.data]

/-- `csv.DictReader` row back to a record: values taken positionally
under the `FIELDNAMES` header. -/
def rowToResponse (fields : List (List Char)) : Response where
  submitted_at := String.mk (fields.getD 0 [])
  name := String.mk (fields.getD 1 [])
  phone := String.mk (fields.getD 2 [])
  email := String.mk (fields.getD 3 [])
  company := String.mk (fields.getD 4 [])
  position := String.mk (fields.getD 5 [])
  comment := String.mk (fields.getD 6 [])

/-! ### Relational backend (db.py; `pg_save`/`pg_load` are the
api/index.py variants)

`_get_conn()` has three outcomes: `None` (driver missing or no
POSTGRES_URL/DATABASE_URL), a raised exception (`psycopg2.connect` /
`pg8000.native.Connection` failing: unreachable server, malformed URL),
or a live connection to the database.  The database itself is a table
of rows keyed by the SERIAL `id` column; a missing table makes every
query raise (the caught, boolean-reported execution failure). -/

structure PgDatabase where
  tableExists : Bool
  nextId : Nat
  rows : List (Nat × Response)
deriving Repr, DecidableEq

/-- Outcome of `_get_conn()` / `_pg_conn()`. -/
inductive ConnAttempt where
  | noConn
  | connRaise
  | conn (db : PgDatabase)
deriving Repr, DecidableEq

/-- Insert `p` into a list sorted by id (the `ORDER BY id` building
block). -/
def insertById (p : Nat × Response) : List (Nat × Response) → List (Nat × Response)
  | [] => [p]
  | q :: qs => if p.1 ≤ q.1 then p :: q :: qs else q :: insertById p qs

/-- `SELECT ... ORDER BY id`: stable sort of the stored rows by id. -/
def sortById (l : List (Nat × Response)) : List (Nat × Response) :=
  l.foldr insertById []

/-- Effect of a successful INSERT: the row is appended under the next
SERIAL id. -/
def insertRow (db : PgDatabase) (r : Response) : PgDatabase :=
  { db with nextId := db.nextId + 1, rows := db.rows ++ [(db.nextId, r)] }

/-- db.py `init_db()`: `_get_conn()` inside `try` (connection errors
caught), `CREATE TABLE IF NOT EXISTS` inside `try`; returns a boolean.
api/index.py `_init_pg()` is line-for-line the same behaviour. -/
def init_db (c : ConnAttempt) : Except Unit (Bool × ConnAttempt) :=
  match c with
  | .noConn => .ok (false, .noConn)
  | .connRaise => .ok (false, .connRaise)
  | .conn db => .ok (true, .conn { db with tableExists := true })

/-- db.py `save_response(data)`: `conn = _get_conn()` is OUTSIDE the
`try` block, so a connection-time exception escapes; the INSERT itself
is inside `try` and reports failure as `False`. -/
def save_response (c : ConnAttempt) (data : Response) : Except Unit (Bool × ConnAttempt) :=
  match c with
  | .noConn => .ok (false, .noConn)
  | .connRaise => .error ()
  | .conn db =>
    if db.tableExists then .ok (true, .conn (insertRow db data))
    else .ok (false, .conn db)

/-- api/index.py `_pg_save(data)`: identical to `save_response` except
that `_pg_conn()` is called inside `try`, so a connection-time
exception is also reported as `False`. -/
def pg_save (c : ConnAttempt) (data : Response) : Except Unit (Bool × ConnAttempt) :=
  match c with
  | .noConn => .ok (false, .noConn)
  | .connRaise => .ok (false, .connRaise)
  | .conn db =>
    if db.tableExists then .ok (true, .conn (insertRow db data))
    else .ok (false, .conn db)

/-- db.py `load_responses()`: `conn = _get_conn()` is OUTSIDE the
`try`, so a connection-time exception escapes; the SELECT (ordered by
id) is inside `try` and reports failure as `None`. -/
def load_responses (c : ConnAttempt) : Except Unit (Option (List Response)) :=
  match c with
  | .noConn => .ok none
  | .connRaise => .error ()
  | .conn db =>
    if db.tableExists then .ok (some ((sortById db.rows).map Prod.snd))
    else .ok none

/-- api/index.py `_pg_load()`: identical to `load_responses` except the
connection attempt is inside `try`, so it returns `None` there too. -/
def pg_load (c : ConnAttempt) : Except Unit (Option (List Response)) :=
  match c with
  | .noConn => .ok none
  | .connRaise => .ok none
  | .conn db =>
    if db.tableExists then .ok (some ((sortById db.rows).map Prod.snd))
    else .ok none

/-- The BOM-prefixed CSV document for a row set: `buf.write("﻿")`,
`writer.writeheader()`, then one `writerow` per record in order. -/
def csvExportDoc (rows : List Response) : List Char :=
  '﻿' :: writeCsv (headerFields :: rows.map respFields)

/-- db.py `responses_to_csv_string()`: loads all rows (propagating
whatever `load_responses` does) and renders the BOM-prefixed CSV. -/
def responses_to_csv_string (c : ConnAttempt) : Except Unit (Option (List Char)) :=
  match load_responses c with
  | .error e => .error e
  | .ok none => .ok none
  | .ok (some rows) => .ok (some (csvExportDoc rows))

/-! ### CSV backend and token file (app.py; api/index.py shares the
code, only the data directory differs) -/

/-- The writable state on disk: the responses CSV file and the admin
token file (contents, `none` when absent).  Text is stored after the
encoding layer: `utf-8-sig` adds/strips the BOM transparently. -/
structure FileSystem where
  csvText : Option (List Char)
  tokenFile : Option String
deriving Repr, DecidableEq

/-- app.py `ensure_csv()`: create the file with the header row if
absent. -/
def ensure_csv (fs : FileSystem) : FileSystem :=
  match fs.csvText with
  | some _ => fs
  | none => { fs with csvText := some (writeRow headerFields) }

/-- app.py `save_response_csv(data)`: ensure the file, then append one
row.  No boolean result is returned and no exception is handled. -/
def save_response_csv (fs : FileSystem) (data : Response) : FileSystem :=
  let fs1 := ensure_csv fs
  { fs1 with csvText := some ((fs1.csvText.getD []) ++ writeRow (respFields data)) }

/-- app.py `load_responses_csv()`: ensure the file, then read it back
through `csv.DictReader` (first record is the header). -/
def load_responses_csv (fs : FileSystem) : List Response :=
  let fs1 := ensure_csv fs
  ((parseCsv (fs1.csvText.getD [])).tail).map rowToResponse

/-! ### Token store (app.py / api/index.py `get_or_create_admin_token`)

`fresh` is the oracle for `secrets.token_urlsafe(32)`. -/

/-- `get_or_create_admin_token()`: a non-empty ADMIN_TOKEN environment
value wins (stripped); otherwise the token file is read (stripped);
otherwise a fresh token is generated, persisted and returned.  Returns
the token and the resulting file-system state. -/
def get_or_create_admin_token (envToken : Option String) (fs : FileSystem)
    (fresh : String) : String × FileSystem :=
  let envT := envToken.getD ""
  if envT ≠ "" then (pyStrip envT, fs)
  else
    match fs.tokenFile with
    | some s => (pyStrip s, fs)
    | none => (fresh, { fs with tokenFile := some fresh })

/-! ### `datetime.now().strftime("%Y-%m-%d %H:%M:%S")` -/

structure DateTime where
  year : Nat
  month : Nat
  day : Nat
  hour : Nat
  minute : Nat
  second : Nat
deriving Repr, DecidableEq

/-- The decimal digit character for `n % 10`. -/
def digitChar (n : Nat) : Char :=
  Char.ofNat (48 + n % 10)

/-- Two-digit zero-padded decimal (`%m %d %H %M %S`; their values are
below 100 for every real datetime). -/
def pad2 (n : Nat) : List Char :=
  [digitChar (n / 10), digitChar n]

/-- Four-digit zero-padded decimal (`%Y`; years are below 10000 for
every Python datetime). -/
def pad4 (n : Nat) : List Char :=
  [digitChar (n / 1000), digitChar (n / 100), digitChar (n / 10), digitChar n]

/-- `d.strftime("%Y-%m-%d %H:%M:%S")`. -/
def strftime (d : DateTime) : String :=
  String.mk (pad4 d.year ++ '-' :: pad2 d.month ++ '-' :: pad2 d.day ++
    ' ' :: pad2 d.hour ++ ':' :: pad2 d.minute ++ ':' :: pad2 d.second)

/-! ### Route handlers (app.py; api/index.py is identical on these
routes).  The confirmation email is sent after the save, swallows every
failure and never affects the HTTP response, so it has no effect on the
modelled state. -/

/-- The six form fields of `POST /submit` (absent fields arrive as
`""` through `request.form.get(field, "")`). -/
structure FormInput where
  name : String
  phone : String
  email : String
  company : String
  position : String
  comment : String
deriving Repr, DecidableEq

/-- `REQUIRED_FIELDS` in app.py / api/index.py. -/
def REQUIRED_FIELDS : List String :=
  ["name", "phone", "email", "company", "position"]

/-- The `values` dict built by `submit`: every field stripped. -/
def stripForm (f : FormInput) : FormInput where
  name := pyStrip f.name
  phone := pyStrip f.phone
  email := pyStrip f.email
  company := pyStrip f.company
  position := pyStrip f.position
  comment := pyStrip f.comment

/-- `values[field]` lookup by field name. -/
def fieldValue (v : FormInput) : String → String
  | "name" => v.name
  | "phone" => v.phone
  | "email" => v.email
  | "company" => v.company
  | "position" => v.position
  | "comment" => v.comment
  | _ => ""

/-- The keys of the `errors` dict: required fields whose stripped value
is empty, in `REQUIRED_FIELDS` order (the message is the constant
"この項目は必須です。"). -/
def requiredErrors (v : FormInput) : List String :=
  REQUIRED_FIELDS.filter (fun fld => fieldValue v fld = "")

/-- The `row` dict handed to storage: server timestamp plus the six
stripped values under their Japanese field names. -/
def rowOfValues (now : DateTime) (v : FormInput) : Response where
  submitted_at := strftime now
  name := v.name
  phone := v.phone
  email := v.email
  company := v.company
  position := v.position
  comment := v.comment

/-- What `POST /submit` responds with. -/
inductive SubmitResult where
  | formPage (errors : List String) (values : FormInput)
  | redirectThanks
deriving Repr, DecidableEq

/-- app.py `submit()`: strip, validate the five required fields,
re-render on error, otherwise persist through the latched backend and
redirect to the thank-you page.  The result of the save is ignored. -/
def submit (usePg : Bool) (form : FormInput) (now : DateTime) (c : ConnAttempt)
    (fs : FileSystem) : Except Unit (SubmitResult × ConnAttempt × FileSystem) :=
  let values := stripForm form
  let errors := requiredErrors values
  if errors ≠ [] then .ok (.formPage errors values, c, fs)
  else
    let row := rowOfValues now values
    if usePg then
      match save_response c row with
      | .error e => .error e
      | .ok (_, c2) => .ok (.redirectThanks, c2, fs)
    else
      .ok (.redirectThanks, c, save_response_csv fs row)

/-- app.py `render_admin`, relational arm: `db.load_responses() or []`
(Python `or`: `None` and `[]` are both falsy). -/
def render_admin_rows (r : Option (List Response)) : List Response :=
  match r with
  | none => []
  | some l => if l = [] then [] else l

/-- What `GET /admin/<token>` responds with. -/
inductive AdminResult where
  | forbidden
  | page (rows : List Response)
deriving Repr, DecidableEq

/-- app.py `admin(token)`: 403 unless the token matches
`get_or_create_admin_token()`, else `render_admin` over the latched
backend. -/
def admin_route (envToken : Option String) (fs : FileSystem) (fresh : String)
    (usePg : Bool) (token : String) (c : ConnAttempt) : Except Unit AdminResult :=
  if token = (get_or_create_admin_token envToken fs fresh).1 then
    if usePg then
      match load_responses c with
      | .error e => .error e
      | .ok r => .ok (.page (render_admin_rows r))
    else .ok (.page (load_responses_csv fs))
  else .ok .forbidden

/-- What `GET /admin/<token>/csv` responds with. -/
inductive CsvResult where
  | forbidden
  | file (content : List Char)
deriving Repr, DecidableEq

/-- app.py `admin_csv(token)`: 403 unless the token matches; the
relational arm serves `db.responses_to_csv_string() or ""`, the CSV arm
re-reads the file and rewrites it through `csv.DictWriter` behind a
fresh BOM and header. -/
def admin_csv_route (envToken : Option String) (fs : FileSystem) (fresh : String)
    (usePg : Bool) (token : String) (c : ConnAttempt) : Except Unit CsvResult :=
  if token = (get_or_create_admin_token envToken fs fresh).1 then
    if usePg then
      match responses_to_csv_string c with
      | .error e => .error e
      | .ok none => .ok (.file [])
      | .ok (some doc) => .ok (.file doc)
    else .ok (.file (csvExportDoc (load_responses_csv fs)))
  else .ok .forbidden

/-! ### Supporting lemmas: `pyStrip` -/

theorem dropWhile_head_false (p : Char → Bool) (l : List Char) (c : Char)
    (cs : List Char) (h : l.dropWhile p = c :: cs) : p c = false := by
  have h2 := List.head_dropWhile_not p l (by simp [h])
  simp only [h, List.head_cons] at h2
  exact h2

theorem dropWhile_idem (p : Char → Bool) (l : List Char) :
    (l.dropWhile p).dropWhile p = l.dropWhile p := by
  cases h : l.dropWhile p with
  | nil => simp
  | cons c cs =>
    simp [List.dropWhile_cons, dropWhile_head_false p l c cs h]

theorem pyStripL_prefix (l : List Char) :
    ∃ t, l.dropWhile isPySpace = pyStripL l ++ t ∧ ∀ c ∈ t, isPySpace c = true := by
  refine ⟨((l.dropWhile isPySpace).reverse.takeWhile isPySpace).reverse, ?_, ?_⟩
  · show l.dropWhile isPySpace =
      ((l.dropWhile isPySpace).reverse.dropWhile isPySpace).reverse ++ _
    conv_lhs => rw [← List.reverse_reverse (l.dropWhile isPySpace)]
    rw [← List.reverse_append, List.takeWhile_append_dropWhile]
  · intro c hc
    rw [List.mem_reverse] at hc
    exact List.mem_takeWhile_imp hc

theorem pyStripL_of_fixed (S : List Char) (h1 : S.dropWhile isPySpace = S)
    (h2 : S.reverse.dropWhile isPySpace = S.reverse) : pyStripL S = S := by
  unfold pyStripL
  rw [h1, h2, List.reverse_reverse]

theorem pyStripL_idem (l : List Char) : pyStripL (pyStripL l) = pyStripL l := by
  have hrev : (pyStripL l).reverse = (l.dropWhile isPySpace).reverse.dropWhile isPySpace := by
    simp [pyStripL]
  refine pyStripL_of_fixed _ ?_ ?_
  · obtain ⟨t, hdec, -⟩ := pyStripL_prefix l
    cases hS : pyStripL l with
    | nil => simp
    | cons c cs =>
      have hT : l.dropWhile isPySpace = c :: (cs ++ t) := by
        rw [hdec, hS]; simp
      simp [List.dropWhile_cons, dropWhile_head_false isPySpace l c (cs ++ t) hT]
  · rw [hrev, dropWhile_idem]

theorem pyStripL_all_space (l : List Char) (h : ∀ c ∈ l, isPySpace c = true) :
    pyStripL l = [] := by
  have : l.dropWhile isPySpace = [] := List.dropWhile_eq_nil_iff.mpr (by simpa using h)
  simp [pyStripL, this]

theorem pyStrip_idem (s : String) : pyStrip (pyStrip s) = pyStrip s := by
  simp [pyStrip, pyStripL_idem]

theorem pyStrip_all_space (s : String) (h : ∀ c ∈ s.data, isPySpace c = true) :
    pyStrip s = "" := by
  have : pyStripL s.data = [] := pyStripL_all_space s.data h
  simp [pyStrip, this]

/-- A stored value that is fixed by `strip` and non-empty is not
whitespace-only. -/
theorem pyStrip_fix_not_space (s : String) (hfix : pyStrip s = s) (hne : s ≠ "") :
    ¬ ∀ c ∈ s.data, isPySpace c = true := by
  intro hall
  exact hne (hfix ▸ pyStrip_all_space s hall)

/-! ### Supporting lemmas: `ORDER BY id` returns insertion order -/

/-- The stored row ids are strictly increasing along the list. -/
def idsIncreasing : List (Nat × Response) → Bool
  | [] => true
  | [_] => true
  | p :: q :: rest => (decide (p.1 < q.1)) && idsIncreasing (q :: rest)

/-- Well-formedness the SERIAL id column maintains: ids strictly
increasing in insertion order and below the sequence counter. -/
def dbWF (db : PgDatabase) : Bool :=
  idsIncreasing db.rows && db.rows.all (fun p => decide (p.1 < db.nextId))

theorem idsIncreasing_tail (p : Nat × Response) (l : List (Nat × Response))
    (h : idsIncreasing (p :: l) = true) : idsIncreasing l = true := by
  cases l with
  | nil => rfl
  | cons q rest => exact (Bool.and_eq_true_iff.mp h).2

theorem sortById_eq_self (l : List (Nat × Response))
    (h : idsIncreasing l = true) : sortById l = l := by
  induction l with
  | nil => rfl
  | cons p t ih =>
    have hs : sortById (p :: t) = insertById p (sortById t) := rfl
    rw [hs, ih (idsIncreasing_tail p t h)]
    cases t with
    | nil => rfl
    | cons q rest =>
      have hlt : p.1 < q.1 := by
        have := (Bool.and_eq_true_iff.mp h).1
        exact of_decide_eq_true this
      simp [insertById, Nat.le_of_lt hlt]

theorem idsIncreasing_append (l : List (Nat × Response)) (n : Nat) (r : Response)
    (hinc : idsIncreasing l = true) (hlt : l.all (fun p => decide (p.1 < n)) = true) :
    idsIncreasing (l ++ [(n, r)]) = true := by
  induction l with
  | nil => rfl
  | cons p t ih =>
    have hpn : p.1 < n := by
      have := (List.all_eq_true.mp hlt) p (by simp)
      exact of_decide_eq_true this
    have ht : idsIncreasing (t ++ [(n, r)]) = true := by
      refine ih (idsIncreasing_tail p t hinc) ?_
      exact List.all_eq_true.mpr fun q hq => (List.all_eq_true.mp hlt) q (by simp [hq])
    cases t with
    | nil => simp [idsIncreasing, hpn]
    | cons q rest =>
      have hpq : p.1 < q.1 := of_decide_eq_true (Bool.and_eq_true_iff.mp hinc).1
      simpa [idsIncreasing, hpq] using ht

/-- A successful INSERT preserves the id invariant. -/
theorem dbWF_insertRow (db : PgDatabase) (r : Response) (h : dbWF db = true) :
    dbWF (insertRow db r) = true := by
  obtain ⟨hinc, hall⟩ := Bool.and_eq_true_iff.mp h
  refine Bool.and_eq_true_iff.mpr ⟨idsIncreasing_append db.rows db.nextId r hinc hall, ?_⟩
  refine List.all_eq_true.mpr fun q hq => ?_
  rcases List.mem_append.mp hq with hq | hq
  · have := (List.all_eq_true.mp hall) q hq
    exact decide_eq_true (Nat.lt_succ_of_lt (of_decide_eq_true this))
  · simp only [List.mem_singleton] at hq
    subst hq
    exact decide_eq_true (Nat.lt_succ_self _)

/-! ### Supporting lemmas: CSV write/parse round trip -/

/-- After a rendered field the writer emits a separator, a line break,
or nothing: exactly the places `parseField` stops. -/
def fieldStopB : List Char → Bool
  | [] => true
  | c :: _ => isFieldEnd c

theorem fieldEnd_special (c : Char) (h : isFieldEnd c = true) : isCsvSpecial c = true := by
  simp only [isFieldEnd, Bool.or_eq_true] at h
  rcases h with (h | h) | h <;> simp [isCsvSpecial, h]

theorem fieldStop_not_quote (r : List Char) (hr : fieldStopB r = true) :
    r.head? ≠ some '"' := by
  cases r with
  | nil => simp
  | cons c rest =>
    intro h
    simp only [List.head?_cons, Option.some.injEq] at h
    subst h
    simp [fieldStopB, isFieldEnd] at hr

theorem parseQuoted_write (f r : List Char) (hr : r.head? ≠ some '"') :
    parseQuoted (escapeQuotes f ++ '"' :: r) = (f, r) := by
  induction f with
  | nil =>
    cases r with
    | nil => rfl
    | cons c2 rest2 =>
      have hc2 : c2 ≠ '"' := by
        intro h
        exact hr (by simp [h])
      simp [escapeQuotes, parseQuoted, hc2]
  | cons c f' ih =>
    by_cases hc : c = '"'
    · subst hc
      simp [escapeQuotes, parseQuoted, ih]
    · have hesc : escapeQuotes (c :: f') = c :: escapeQuotes f' := by
        simp [escapeQuotes, hc]
      rw [hesc, List.cons_append, parseQuoted.eq_def]
      simp [hc, ih]

theorem parseUnquoted_write (f r : List Char) (hf : ∀ c ∈ f, isFieldEnd c = false)
    (hr : fieldStopB r = true) : parseUnquoted (f ++ r) = (f, r) := by
  induction f with
  | nil =>
    cases r with
    | nil => rfl
    | cons c rest =>
      have hc : isFieldEnd c = true := hr
      simp [parseUnquoted, hc]
  | cons c f' ih =>
    have hc : isFieldEnd c = false := hf c (by simp)
    have ih2 := ih fun x hx => hf x (by simp [hx])
    simp [parseUnquoted, hc, ih2]

theorem parseField_write (f r : List Char) (hr : fieldStopB r = true) :
    parseField (writeField f ++ r) = (f, r) := by
  by_cases hq : needsQuote f = true
  · have harr : writeField f ++ r = '"' :: (escapeQuotes f ++ '"' :: r) := by
      simp [writeField, hq]
    rw [harr]
    simpa [parseField] using parseQuoted_write f r (fieldStop_not_quote r hr)
  · have hq' : needsQuote f = false := by simpa using hq
    have hspec : ∀ c ∈ f, isCsvSpecial c = false := by
      simpa [needsQuote, List.any_eq_false] using hq'
    have hf : ∀ c ∈ f, isFieldEnd c = false := by
      intro c hc
      by_contra hcc
      rw [Bool.not_eq_false] at hcc
      exact absurd (fieldEnd_special c hcc) (by simp [hspec c hc])
    have hw : writeField f = f := by simp [writeField, hq']
    rw [hw]
    cases f with
    | nil =>
      cases r with
      | nil => rfl
      | cons c rest =>
        have hc : isFieldEnd c = true := hr
        have hcq : c ≠ '"' := by
          intro h
          subst h
          simp [isFieldEnd] at hc
        simp [parseField, hcq, parseUnquoted, hc]
    | cons c f' =>
      have hcq : c ≠ '"' := by
        intro h
        have := hspec c (by simp)
        subst h
        simp [isCsvSpecial] at this
      show parseField (c :: (f' ++ r)) = (c :: f', r)
      simp only [parseField, hcq, if_false, if_neg hcq]
      exact parseUnquoted_write (c :: f') r hf hr

theorem parseRecordF_write (fs : List (List Char)) (doc : List Char) :
    ∀ fuel : Nat, fs ≠ [] → fs.length ≤ fuel →
      parseRecordF fuel (writeRow fs ++ doc) = (fs, doc) := by
  induction fs with
  | nil =>
    intro fuel hfs hfuel
    exact absurd rfl hfs
  | cons f fs' ih =>
    intro fuel hfs hfuel
    cases fuel with
    | zero => simp at hfuel
    | succ k =>
      cases fs' with
      | nil =>
        have harr : writeRow [f] ++ doc = writeField f ++ ('\r' :: '\n' :: doc) := by
          simp [writeRow, joinFields]
        have hp := parseField_write f ('\r' :: '\n' :: doc) (by rfl)
        rw [harr]
        simp [parseRecordF, hp]
      | cons f2 rest =>
        have harr : writeRow (f :: f2 :: rest) ++ doc
            = writeField f ++ (',' :: (writeRow (f2 :: rest) ++ doc)) := by
          simp [writeRow, joinFields]
        have hp := parseField_write f (',' :: (writeRow (f2 :: rest) ++ doc)) (by rfl)
        have ihr := ih k (List.cons_ne_nil f2 rest) (by simpa using hfuel)
        rw [harr]
        simp [parseRecordF, hp, ihr]

theorem writeRow_length_ge (fs : List (List Char)) : fs.length ≤ (writeRow fs).length := by
  induction fs with
  | nil => simp [writeRow]
  | cons f fs' ih =>
    cases fs' with
    | nil => simp [writeRow, joinFields]
    | cons f2 rest =>
      have hexp : writeRow (f :: f2 :: rest)
          = writeField f ++ ',' :: (writeRow (f2 :: rest)) := by
        simp [writeRow, joinFields]
      rw [hexp]
      have h1 : (writeField f ++ ',' :: writeRow (f2 :: rest)).length
          = (writeField f).length + 1 + (writeRow (f2 :: rest)).length := by
        simp only [List.length_append, List.length_cons]
        omega
      rw [h1]
      simp only [List.length_cons] at ih ⊢
      omega

theorem parseRecord_write (fs : List (List Char)) (doc : List Char) (hfs : fs ≠ []) :
    parseRecord (writeRow fs ++ doc) = (fs, doc) := by
  apply parseRecordF_write fs doc _ hfs
  have := writeRow_length_ge fs
  simp only [List.length_append]
  omega

theorem writeRow_ne_nil (fs : List (List Char)) : writeRow fs ≠ [] := by
  simp [writeRow]

theorem parseCsvF_write (rows : List (List (List Char))) :
    ∀ fuel : Nat, (∀ r ∈ rows, r ≠ []) → rows.length ≤ fuel →
      parseCsvF fuel (writeCsv rows) = rows := by
  induction rows with
  | nil =>
    intro fuel hrows hfuel
    show parseCsvF fuel ([].map writeRow).flatten = []
    cases fuel <;> rfl
  | cons r rs ih =>
    intro fuel hrows hfuel
    cases fuel with
    | zero => simp at hfuel
    | succ k =>
      have hwr : writeCsv (r :: rs) = writeRow r ++ writeCsv rs := by
        simp [writeCsv]
      obtain ⟨c, cs, hc⟩ : ∃ c cs, writeRow r ++ writeCsv rs = c :: cs := by
        cases h : writeRow r ++ writeCsv rs with
        | nil => exact absurd (List.append_eq_nil.mp h).1 (writeRow_ne_nil r)
        | cons c cs => exact ⟨c, cs, rfl⟩
      have hpr : parseRecord (c :: cs) = (r, writeCsv rs) := by
        rw [← hc]
        exact parseRecord_write r (writeCsv rs) (hrows r (by simp))
      have ihr := ih k (fun x hx => hrows x (by simp [hx])) (by simpa using hfuel)
      rw [hwr, hc]
      simp [parseCsvF, hpr, ihr]

theorem writeCsv_length_ge (rows : List (List (List Char))) :
    rows.length ≤ (writeCsv rows).length := by
  induction rows with
  | nil => simp [writeCsv]
  | cons r rs ih =>
    have hwr : writeCsv (r :: rs) = writeRow r ++ writeCsv rs := by
      simp [writeCsv]
    rw [hwr]
    have : 1 ≤ (writeRow r).length := by
      simp [writeRow]
    simp only [List.length_append, List.length_cons]
    omega

/-- Round trip: parsing a document the writer produced gives back
exactly the records it was handed. -/
theorem parseCsv_writeCsv (rows : List (List (List Char)))
    (hrows : ∀ r ∈ rows, r ≠ []) : parseCsv (writeCsv rows) = rows :=
  parseCsvF_write rows (writeCsv rows).length hrows (writeCsv_length_ge rows)

/-! ### Claim C1 -/

/-- Claim C1, counterexample: with a configured URL but an unreachable
server (`psycopg2.connect` raises), db.py `save_response` lets the
exception escape (`conn = _get_conn()` is outside its `try`), and the
submit handler therefore does not reach the thank-you redirect. -/
theorem C1_counterexample :
    save_response ConnAttempt.connRaise
        ⟨"2024-01-01 00:00:00", "田中", "03-1234-5678", "a@b.com", "Acme", "CEO", ""⟩
      = Except.error ()
    ∧ submit true ⟨"田中", "03-1234-5678", "a@b.com", "Acme", "CEO", ""⟩
        ⟨2024, 1, 1, 0, 0, 0⟩ ConnAttempt.connRaise ⟨none, none⟩
      = Except.error () :=
  ⟨rfl, rfl⟩

/-- Claim C1, amended: the api-variant save reports failure only as a
boolean (no exception ever escapes it); the db.py variant does so for
every insert-time failure, but an exception raised while establishing
the connection escapes; whenever the save does not raise, the submit
handler proceeds to the thank-you redirect even if persistence failed. -/
theorem C1_save_boolean (r : Response) (form : FormInput) (now : DateTime)
    (fs : FileSystem) (hvalid : requiredErrors (stripForm form) = []) :
    (∀ c, ∃ b c2, pg_save c r = Except.ok (b, c2))
    ∧ (∀ c, c ≠ ConnAttempt.connRaise → ∃ b c2, save_response c r = Except.ok (b, c2))
    ∧ (∀ db : PgDatabase, db.tableExists = false →
        save_response (ConnAttempt.conn db) r
          = Except.ok (false, ConnAttempt.conn db))
    ∧ (∀ c, c ≠ ConnAttempt.connRaise → ∃ c3,
        submit true form now c fs
          = Except.ok (SubmitResult.redirectThanks, c3, fs))
    ∧ (∀ c, submit false form now c fs
        = Except.ok (SubmitResult.redirectThanks, c,
            save_response_csv fs (rowOfValues now (stripForm form)))) := by
  refine ⟨?_, ?_, ?_, ?_, ?_⟩
  · intro c
    cases c with
    | noConn => exact ⟨false, _, rfl⟩
    | connRaise => exact ⟨false, _, rfl⟩
    | conn db =>
      cases htb : db.tableExists with
      | true => exact ⟨true, ConnAttempt.conn (insertRow db r), by simp [pg_save, htb]⟩
      | false => exact ⟨false, ConnAttempt.conn db, by simp [pg_save, htb]⟩
  · intro c hc
    cases c with
    | noConn => exact ⟨false, _, rfl⟩
    | connRaise => exact absurd rfl hc
    | conn db =>
      cases htb : db.tableExists with
      | true => exact ⟨true, ConnAttempt.conn (insertRow db r), by simp [save_response, htb]⟩
      | false => exact ⟨false, ConnAttempt.conn db, by simp [save_response, htb]⟩
  · intro db htb
    simp [save_response, htb]
  · intro c hc
    cases c with
    | noConn => exact ⟨ConnAttempt.noConn, by simp [submit, hvalid, save_response]⟩
    | connRaise => exact absurd rfl hc
    | conn db =>
      cases htb : db.tableExists with
      | true =>
        exact ⟨ConnAttempt.conn (insertRow db (rowOfValues now (stripForm form))),
          by simp [submit, hvalid, save_response, htb]⟩
      | false =>
        exact ⟨ConnAttempt.conn db, by simp [submit, hvalid, save_response, htb]⟩
  · intro c
    simp [submit, hvalid]

/-- Claim C1, witness for the amended theorem. -/
theorem C1_save_boolean_witness :
    requiredErrors (stripForm ⟨"田中", "03-1234-5678", "a@b.com", "Acme", "CEO", ""⟩) = []
    ∧ (∀ c, ∃ b c2, pg_save c
        ⟨"2024-01-01 00:00:00", "田中", "03-1234-5678", "a@b.com", "Acme", "CEO", ""⟩
        = Except.ok (b, c2)) :=
  ⟨by decide, (C1_save_boolean
    ⟨"2024-01-01 00:00:00", "田中", "03-1234-5678", "a@b.com", "Acme", "CEO", ""⟩
    ⟨"田中", "03-1234-5678", "a@b.com", "Acme", "CEO", ""⟩
    ⟨2024, 1, 1, 0, 0, 0⟩ ⟨none, none⟩ (by decide)).1⟩

/-! ### Claim C2 -/

/-- Claim C2, counterexample: the submission (name " 田中 ", empty
phone) has a required field empty, and the re-rendered response carries
"田中" for the name — the stripped value, not the value the user
entered. -/
theorem C2_counterexample :
    submit true ⟨" 田中 ", "", "a@b.com", "Acme", "CEO", ""⟩ ⟨2024, 1, 1, 0, 0, 0⟩
        ConnAttempt.noConn ⟨none, none⟩
      = Except.ok (SubmitResult.formPage ["phone"]
          ⟨"田中", "", "a@b.com", "Acme", "CEO", ""⟩, ConnAttempt.noConn, ⟨none, none⟩)
    ∧ ("田中" : String) ≠ " 田中 " :=
  ⟨rfl, by decide⟩

/-- Claim C2, amended: when a required field is missing or empty (after
stripping), no record is persisted — the storage state is returned
unchanged — and the form is re-rendered with the entered values
stripped of leading and trailing whitespace. -/
theorem C2_missing_required (usePg : Bool) (form : FormInput) (now : DateTime)
    (c : ConnAttempt) (fs : FileSystem)
    (h : pyStrip form.name = "" ∨ pyStrip form.phone = "" ∨ pyStrip form.email = ""
       ∨ pyStrip form.company = "" ∨ pyStrip form.position = "") :
    submit usePg form now c fs
      = Except.ok (SubmitResult.formPage (requiredErrors (stripForm form))
          (stripForm form), c, fs) := by
  have herr : requiredErrors (stripForm form) ≠ [] := by
    rcases h with h | h | h | h | h
    · exact List.ne_nil_of_mem (show "name" ∈ requiredErrors (stripForm form) from
        List.mem_filter.mpr ⟨by simp [REQUIRED_FIELDS], by simp [fieldValue, stripForm, h]⟩)
    · exact List.ne_nil_of_mem (show "phone" ∈ requiredErrors (stripForm form) from
        List.mem_filter.mpr ⟨by simp [REQUIRED_FIELDS], by simp [fieldValue, stripForm, h]⟩)
    · exact List.ne_nil_of_mem (show "email" ∈ requiredErrors (stripForm form) from
        List.mem_filter.mpr ⟨by simp [REQUIRED_FIELDS], by simp [fieldValue, stripForm, h]⟩)
    · exact List.ne_nil_of_mem (show "company" ∈ requiredErrors (stripForm form) from
        List.mem_filter.mpr ⟨by simp [REQUIRED_FIELDS], by simp [fieldValue, stripForm, h]⟩)
    · exact List.ne_nil_of_mem (show "position" ∈ requiredErrors (stripForm form) from
        List.mem_filter.mpr ⟨by simp [REQUIRED_FIELDS], by simp [fieldValue, stripForm, h]⟩)
  simp [submit, herr]

/-- Claim C2, witness for the amended theorem. -/
theorem C2_missing_required_witness :
    (pyStrip "" = "" ∨ pyStrip " x " = "" ∨ pyStrip "a@b.com" = ""
      ∨ pyStrip "Acme" = "" ∨ pyStrip "CEO" = "")
    ∧ submit true ⟨"", " x ", "a@b.com", "Acme", "CEO", ""⟩ ⟨2024, 1, 1, 0, 0, 0⟩
        ConnAttempt.noConn ⟨none, none⟩
      = Except.ok (SubmitResult.formPage
          (requiredErrors (stripForm ⟨"", " x ", "a@b.com", "Acme", "CEO", ""⟩))
          (stripForm ⟨"", " x ", "a@b.com", "Acme", "CEO", ""⟩),
          ConnAttempt.noConn, ⟨none, none⟩) :=
  ⟨Or.inl (by decide),
   C2_missing_required true ⟨"", " x ", "a@b.com", "Acme", "CEO", ""⟩
     ⟨2024, 1, 1, 0, 0, 0⟩ ConnAttempt.noConn ⟨none, none⟩ (Or.inl (by decide))⟩

/-! ### Claim C3 -/

/-- Claim C3, counterexample: with a configured URL but an unreachable
server, db.py `load_responses` raises (its `conn = _get_conn()` is
outside the `try`) instead of returning the unavailable signal. -/
theorem C3_counterexample :
    load_responses ConnAttempt.connRaise = Except.error () :=
  rfl

/-- Claim C3, amended: on success `load_responses` returns every
persisted record in insertion order (the SERIAL ids set at insert time
are increasing, so `ORDER BY id` returns the stored list unchanged);
a failure during the query itself yields `None`, which is distinct from
the empty list; the api variant also returns `None` when establishing
the connection fails, while the db.py variant raises there. -/
theorem C3_load_contract (db : PgDatabase) (hwf : dbWF db = true) :
    (db.tableExists = true →
      load_responses (ConnAttempt.conn db)
        = Except.ok (some (db.rows.map Prod.snd)))
    ∧ (db.tableExists = false →
      load_responses (ConnAttempt.conn db) = Except.ok none)
    ∧ load_responses ConnAttempt.noConn = Except.ok none
    ∧ pg_load ConnAttempt.connRaise = Except.ok none
    ∧ (∀ r : Response, db.tableExists = true →
        save_response (ConnAttempt.conn db) r
          = Except.ok (true, ConnAttempt.conn (insertRow db r))
        ∧ (insertRow db r).rows.map Prod.snd = db.rows.map Prod.snd ++ [r]
        ∧ dbWF (insertRow db r) = true)
    ∧ (∀ l : List Response,
        (Except.ok (some l) : Except Unit (Option (List Response)))
          ≠ Except.ok none) := by
  have hinc : idsIncreasing db.rows = true := (Bool.and_eq_true_iff.mp hwf).1
  refine ⟨?_, ?_, rfl, rfl, ?_, ?_⟩
  · intro htb
    simp [load_responses, htb, sortById_eq_self db.rows hinc]
  · intro htb
    simp [load_responses, htb]
  · intro r htb
    refine ⟨by simp [save_response, htb], by simp [insertRow], dbWF_insertRow db r hwf⟩
  · intro l h
    simp at h

/-- Claim C3, witness for the amended theorem. -/
theorem C3_load_contract_witness :
    dbWF ⟨true, 2, [(0, ⟨"t1", "n1", "p1", "e1", "c1", "r1", ""⟩),
                    (1, ⟨"t2", "n2", "p2", "e2", "c2", "r2", ""⟩)]⟩ = true
    ∧ load_responses (ConnAttempt.conn
        ⟨true, 2, [(0, ⟨"t1", "n1", "p1", "e1", "c1", "r1", ""⟩),
                   (1, ⟨"t2", "n2", "p2", "e2", "c2", "r2", ""⟩)]⟩)
      = Except.ok (some [⟨"t1", "n1", "p1", "e1", "c1", "r1", ""⟩,
                         ⟨"t2", "n2", "p2", "e2", "c2", "r2", ""⟩]) :=
  ⟨by decide,
   (C3_load_contract ⟨true, 2, [(0, ⟨"t1", "n1", "p1", "e1", "c1", "r1", ""⟩),
      (1, ⟨"t2", "n2", "p2", "e2", "c2", "r2", ""⟩)]⟩ (by decide)).1 rfl⟩

/-! ### Claim C7 -/

/-- Claim C7: `init_db` never lets an exception past its boundary; a
missing connection string (or missing driver) and a connection failure
or malformed connection string both yield `false`; on a healthy
database it returns `true` and idempotently leaves the table created. -/
theorem C7_init_db (c : ConnAttempt) :
    (∃ b c2, init_db c = Except.ok (b, c2))
    ∧ init_db ConnAttempt.noConn = Except.ok (false, ConnAttempt.noConn)
    ∧ init_db ConnAttempt.connRaise = Except.ok (false, ConnAttempt.connRaise)
    ∧ (∀ db : PgDatabase, init_db (ConnAttempt.conn db)
        = Except.ok (true, ConnAttempt.conn { db with tableExists := true }))
    ∧ (∀ db : PgDatabase, ({ db with tableExists := true } : PgDatabase).tableExists = true)
    ∧ (∀ db : PgDatabase,
        init_db (ConnAttempt.conn { db with tableExists := true })
          = Except.ok (true, ConnAttempt.conn { db with tableExists := true })) := by
  refine ⟨?_, rfl, rfl, fun db => rfl, fun db => rfl, fun db => rfl⟩
  cases c with
  | noConn => exact ⟨false, _, rfl⟩
  | connRaise => exact ⟨false, _, rfl⟩
  | conn db => exact ⟨true, _, rfl⟩

/-! ### Claim C10 -/

/-- Claim C10: `render_admin` collapses the relational failure signal
into an empty row list (`load_responses() or []`), so the admin page
renders an unreadable database (here: a query failure) identically to a
database with no responses. -/
theorem C10_admin_collapses_failure :
    render_admin_rows none = ([] : List Response)
    ∧ render_admin_rows none = render_admin_rows (some [])
    ∧ (∀ l : List Response, render_admin_rows (some l) = l)
    ∧ (∀ (envToken : Option String) (fs : FileSystem) (fresh token : String)
        (db : PgDatabase), db.tableExists = false →
        admin_route envToken fs fresh true token (ConnAttempt.conn db)
          = admin_route envToken fs fresh true token
              (ConnAttempt.conn ⟨true, 0, []⟩)) := by
  refine ⟨rfl, rfl, ?_, ?_⟩
  · intro l
    by_cases hl : l = []
    · simp [render_admin_rows, hl]
    · simp [render_admin_rows, hl]
  · intro envToken fs fresh token db hdb
    by_cases htok : token = (get_or_create_admin_token envToken fs fresh).1 <;>
      simp [admin_route, htok, load_responses, hdb, render_admin_rows, sortById]

/-- Claim C10, witness. -/
theorem C10_admin_collapses_failure_witness :
    (⟨false, 0, []⟩ : PgDatabase).tableExists = false
    ∧ admin_route none ⟨none, some "tok"⟩ "f" true "tok" (ConnAttempt.conn ⟨false, 0, []⟩)
      = admin_route none ⟨none, some "tok"⟩ "f" true "tok" (ConnAttempt.conn ⟨true, 0, []⟩) :=
  ⟨rfl, C10_admin_collapses_failure.2.2.2 none ⟨none, some "tok"⟩ "f" "tok"
    ⟨false, 0, []⟩ rfl⟩

/-! ### Claim C4 -/

/-- Claim C4: round trip — the CSV export, parsed back as CSV after the
byte-order mark, yields the canonical seven-field header and data rows
equal, field by field and in order, to what `load_responses` returned. -/
theorem C4_export_roundtrip (c : ConnAttempt) (rows : List Response)
    (hload : load_responses c = Except.ok (some rows)) :
    responses_to_csv_string c = Except.ok (some (csvExportDoc rows))
    ∧ (csvExportDoc rows).head? = some '﻿'
    ∧ parseCsv (csvExportDoc rows).tail
        = FIELDNAMES.map String.data :: rows.map respFields := by
  refine ⟨by simp [responses_to_csv_string, hload], rfl, ?_⟩
  show parseCsv (writeCsv (headerFields :: rows.map respFields)) = _
  rw [parseCsv_writeCsv]
  · rfl
  · intro r hr
    rcases List.mem_cons.mp hr with h | h
    · subst h
      simp [headerFields, FIELDNAMES]
    · obtain ⟨resp, -, hresp⟩ := List.mem_map.mp h
      rw [← hresp]
      simp [respFields]

/-- Claim C4, witness: a store holding two records whose fields use the
delimiter, the quote character and line breaks. -/
theorem C4_export_roundtrip_witness :
    load_responses (ConnAttempt.conn ⟨true, 2,
        [(0, ⟨"2024-01-01 00:00:00", "田中, 太郎", "03-1234-5678", "a@b.com",
              "Acme \"K.K.\"", "CEO", "line1\r\nline2"⟩),
         (1, ⟨"2024-01-02 00:00:00", "", "", "", "", "", ""⟩)]⟩)
      = Except.ok (some
        [⟨"2024-01-01 00:00:00", "田中, 太郎", "03-1234-5678", "a@b.com",
          "Acme \"K.K.\"", "CEO", "line1\r\nline2"⟩,
         ⟨"2024-01-02 00:00:00", "", "", "", "", "", ""⟩])
    ∧ parseCsv (csvExportDoc
        [⟨"2024-01-01 00:00:00", "田中, 太郎", "03-1234-5678", "a@b.com",
          "Acme \"K.K.\"", "CEO", "line1\r\nline2"⟩,
         ⟨"2024-01-02 00:00:00", "", "", "", "", "", ""⟩]).tail
      = FIELDNAMES.map String.data :: ([⟨"2024-01-01 00:00:00", "田中, 太郎",
          "03-1234-5678", "a@b.com", "Acme \"K.K.\"", "CEO", "line1\r\nline2"⟩,
          (⟨"2024-01-02 00:00:00", "", "", "", "", "", ""⟩ : Response)]).map respFields :=
  ⟨rfl,
   (C4_export_roundtrip (ConnAttempt.conn ⟨true, 2,
      [(0, ⟨"2024-01-01 00:00:00", "田中, 太郎", "03-1234-5678", "a@b.com",
            "Acme \"K.K.\"", "CEO", "line1\r\nline2"⟩),
       (1, ⟨"2024-01-02 00:00:00", "", "", "", "", "", ""⟩)]⟩)
      [⟨"2024-01-01 00:00:00", "田中, 太郎", "03-1234-5678", "a@b.com",
        "Acme \"K.K.\"", "CEO", "line1\r\nline2"⟩,
       ⟨"2024-01-02 00:00:00", "", "", "", "", "", ""⟩] rfl).2.2⟩

/-! ### Claim C5 -/

/-- Claim C5, counterexample: with ADMIN_TOKEN set to " secret " the
function returns "secret" (stripped), and with ADMIN_TOKEN set to the
empty string it ignores the environment and returns the file token —
in both cases not the environment-provided value. -/
theorem C5_counterexample :
    (get_or_create_admin_token (some " secret ") ⟨none, none⟩ "f").1 = "secret"
    ∧ (" secret " : String) ≠ "secret"
    ∧ (get_or_create_admin_token (some "") ⟨none, some "tok"⟩ "f").1 = "tok"
    ∧ ("tok" : String) ≠ "" :=
  ⟨rfl, by decide, rfl, by decide⟩

/-- Claim C5, amended: a non-empty environment token wins and is
returned stripped of surrounding whitespace; otherwise the persisted
token file's content is returned stripped; if the file is absent a
fresh URL-safe token is generated, persisted and returned; and two
calls in the same process return the same token (the generated token
carries no surrounding whitespace, as URL-safe tokens do not). -/
theorem C5_token_contract (envToken : Option String) (fs : FileSystem)
    (fresh1 fresh2 : String) (hfresh : pyStrip fresh1 = fresh1) :
    (∀ t, envToken = some t → t ≠ "" →
      get_or_create_admin_token envToken fs fresh1 = (pyStrip t, fs))
    ∧ (envToken.getD "" = "" → ∀ s, fs.tokenFile = some s →
      get_or_create_admin_token envToken fs fresh1 = (pyStrip s, fs))
    ∧ (envToken.getD "" = "" → fs.tokenFile = none →
      get_or_create_admin_token envToken fs fresh1
        = (fresh1, { fs with tokenFile := some fresh1 }))
    ∧ (get_or_create_admin_token envToken
        (get_or_create_admin_token envToken fs fresh1).2 fresh2).1
      = (get_or_create_admin_token envToken fs fresh1).1 := by
  refine ⟨?_, ?_, ?_, ?_⟩
  · intro t ht hne
    subst ht
    simp [get_or_create_admin_token, hne]
  · intro henv s hfile
    simp [get_or_create_admin_token, henv, hfile]
  · intro henv hfile
    simp [get_or_create_admin_token, henv, hfile]
  · by_cases henv : envToken.getD "" = ""
    · cases hfile : fs.tokenFile with
      | some s => simp [get_or_create_admin_token, henv, hfile]
      | none => simp [get_or_create_admin_token, henv, hfile, hfresh]
    · simp [get_or_create_admin_token, henv]

/-- Claim C5, witness for the amended theorem. -/
theorem C5_token_contract_witness :
    pyStrip "AbC123-_xyz" = "AbC123-_xyz"
    ∧ get_or_create_admin_token none ⟨none, none⟩ "AbC123-_xyz"
        = ("AbC123-_xyz", ⟨none, some "AbC123-_xyz"⟩) :=
  ⟨by decide,
   (C5_token_contract none ⟨none, none⟩ "AbC123-_xyz" "other" (by decide)).2.2.1
     rfl rfl⟩

/-! ### Claim C6 -/

/-- Claim C6: for every ordered record set the CSV export is exactly a
leading byte-order mark, the canonical seven-name header row, then one
row per record in `load_responses` order, with field values transformed
only by standard CSV quoting. -/
theorem C6_export_exact (envToken : Option String) (fs : FileSystem)
    (fresh token : String) (c : ConnAttempt) (rows : List Response)
    (hload : load_responses c = Except.ok (some rows))
    (htok : token = (get_or_create_admin_token envToken fs fresh).1) :
    admin_csv_route envToken fs fresh true token c
      = Except.ok (CsvResult.file (csvExportDoc rows))
    ∧ csvExportDoc rows
      = '﻿' :: (writeRow (FIELDNAMES.map String.data)
          ++ (rows.map (fun r => writeRow (respFields r))).flatten)
    ∧ (∀ f : List Char, needsQuote f = false → writeField f = f)
    ∧ (∀ f : List Char, needsQuote f = true →
        writeField f = '"' :: (escapeQuotes f ++ ['"'])) := by
  refine ⟨?_, ?_, ?_, ?_⟩
  · simp [admin_csv_route, htok, responses_to_csv_string, hload]
  · simp only [csvExportDoc, writeCsv, headerFields, List.map_cons, List.flatten_cons,
      List.map_map]
    rfl
  · intro f hf
    simp [writeField, hf]
  · intro f hf
    simp [writeField, hf]

/-- Claim C6, witness. -/
theorem C6_export_exact_witness :
    load_responses (ConnAttempt.conn ⟨true, 1,
        [(0, ⟨"2024-01-01 00:00:00", "n", "p", "e", "c", "r", "x,y"⟩)]⟩)
      = Except.ok (some [⟨"2024-01-01 00:00:00", "n", "p", "e", "c", "r", "x,y"⟩])
    ∧ ("tok" : String) = (get_or_create_admin_token none ⟨none, some "tok"⟩ "f").1
    ∧ admin_csv_route none ⟨none, some "tok"⟩ "f" true "tok"
        (ConnAttempt.conn ⟨true, 1,
          [(0, ⟨"2024-01-01 00:00:00", "n", "p", "e", "c", "r", "x,y"⟩)]⟩)
      = Except.ok (CsvResult.file (csvExportDoc
          [⟨"2024-01-01 00:00:00", "n", "p", "e", "c", "r", "x,y"⟩])) :=
  ⟨rfl, rfl,
   (C6_export_exact none ⟨none, some "tok"⟩ "f" "tok"
      (ConnAttempt.conn ⟨true, 1,
        [(0, ⟨"2024-01-01 00:00:00", "n", "p", "e", "c", "r", "x,y"⟩)]⟩)
      [⟨"2024-01-01 00:00:00", "n", "p", "e", "c", "r", "x,y"⟩] rfl rfl).1⟩

/-! ### Claim C8 -/

/-- Python `or []` on a list that is already a list returns that list
(the empty list maps to the empty list). -/
theorem render_admin_rows_some (l : List Response) :
    render_admin_rows (some l) = l := by
  by_cases hl : l = [] <;> simp [render_admin_rows, hl]

/-- Claim C8: a request to /admin/<token> or /admin/<token>/csv with a
token different from the stored/derived one is answered 403 carrying no
record data; with the matching token every stored record is listed. -/
theorem C8_token_gate (envToken : Option String) (fs : FileSystem)
    (fresh token : String) (usePg : Bool) (c : ConnAttempt) :
    (token ≠ (get_or_create_admin_token envToken fs fresh).1 →
      admin_route envToken fs fresh usePg token c = Except.ok AdminResult.forbidden
      ∧ admin_csv_route envToken fs fresh usePg token c
          = Except.ok CsvResult.forbidden)
    ∧ (token = (get_or_create_admin_token envToken fs fresh).1 →
      ∀ db : PgDatabase, dbWF db = true → db.tableExists = true →
        admin_route envToken fs fresh true token (ConnAttempt.conn db)
          = Except.ok (AdminResult.page (db.rows.map Prod.snd))) := by
  constructor
  · intro hne
    exact ⟨by simp [admin_route, hne], by simp [admin_csv_route, hne]⟩
  · intro htok db hwf htb
    have hinc : idsIncreasing db.rows = true := (Bool.and_eq_true_iff.mp hwf).1
    simp [admin_route, htok, load_responses, htb, sortById_eq_self db.rows hinc,
      render_admin_rows_some]

/-- Claim C8, witness: a wrong token is refused, the right token lists
the stored record. -/
theorem C8_token_gate_witness :
    (("wrong" : String) ≠ (get_or_create_admin_token none ⟨none, some "tok"⟩ "f").1
      ∧ admin_route none ⟨none, some "tok"⟩ "f" true "wrong"
          (ConnAttempt.conn ⟨true, 1, [(0, ⟨"t", "n", "p", "e", "c", "r", ""⟩)]⟩)
        = Except.ok AdminResult.forbidden)
    ∧ (("tok" : String) = (get_or_create_admin_token none ⟨none, some "tok"⟩ "f").1
      ∧ admin_route none ⟨none, some "tok"⟩ "f" true "tok"
          (ConnAttempt.conn ⟨true, 1, [(0, ⟨"t", "n", "p", "e", "c", "r", ""⟩)]⟩)
        = Except.ok (AdminResult.page [⟨"t", "n", "p", "e", "c", "r", ""⟩])) :=
  ⟨⟨by decide,
    ((C8_token_gate none ⟨none, some "tok"⟩ "f" "wrong" true
      (ConnAttempt.conn ⟨true, 1, [(0, ⟨"t", "n", "p", "e", "c", "r", ""⟩)]⟩)).1
      (by decide)).1⟩,
   ⟨rfl,
    (C8_token_gate none ⟨none, some "tok"⟩ "f" "tok" true
      (ConnAttempt.conn ⟨true, 1, [(0, ⟨"t", "n", "p", "e", "c", "r", ""⟩)]⟩)).2
      rfl ⟨true, 1, [(0, ⟨"t", "n", "p", "e", "c", "r", ""⟩)]⟩ (by decide) rfl⟩⟩

/-! ### Claim C9 -/

theorem digitChar_isDigit (n : Nat) : (digitChar n).isDigit = true := by
  have h : n % 10 < 10 := Nat.mod_lt _ (by omega)
  unfold digitChar
  interval_cases h2 : n % 10 <;> decide

/-- The formatted timestamp always has the "%Y-%m-%d %H:%M:%S" shape:
19 characters, separators in place, digits everywhere else. -/
theorem strftime_shape (d : DateTime) :
    (strftime d).length = 19
    ∧ (strftime d).data[4]? = some '-'
    ∧ (strftime d).data[7]? = some '-'
    ∧ (strftime d).data[10]? = some ' '
    ∧ (strftime d).data[13]? = some ':'
    ∧ (strftime d).data[16]? = some ':'
    ∧ ∀ i ∈ ([0, 1, 2, 3, 5, 6, 8, 9, 11, 12, 14, 15, 17, 18] : List Nat),
        ∃ ch, (strftime d).data[i]? = some ch ∧ ch.isDigit = true := by
  refine ⟨?_, rfl, rfl, rfl, rfl, rfl, ?_⟩
  · simp [strftime, String.length, pad4, pad2]
  · intro i hi
    fin_cases hi <;>
      exact ⟨_, rfl, digitChar_isDigit _⟩

/-- Claim C9: every record the submit handler persists has all seven
fields present, the six user-supplied field values stripped of leading
and trailing whitespace (so no stored required field is empty or
whitespace-only), and submitted_at formatted exactly as
"%Y-%m-%d %H:%M:%S" from the server-local wall clock. -/
theorem C9_persisted_record (form : FormInput) (now : DateTime)
    (h : requiredErrors (stripForm form) = []) :
    (∀ (db : PgDatabase) (fs : FileSystem), db.tableExists = true →
      submit true form now (ConnAttempt.conn db) fs
        = Except.ok (SubmitResult.redirectThanks,
            ConnAttempt.conn (insertRow db (rowOfValues now (stripForm form))), fs))
    ∧ (∀ (c : ConnAttempt) (fs : FileSystem),
      submit false form now c fs
        = Except.ok (SubmitResult.redirectThanks, c,
            save_response_csv fs (rowOfValues now (stripForm form))))
    ∧ (respFields (rowOfValues now (stripForm form))).length = 7
    ∧ rowOfValues now (stripForm form)
        = ⟨strftime now, pyStrip form.name, pyStrip form.phone, pyStrip form.email,
           pyStrip form.company, pyStrip form.position, pyStrip form.comment⟩
    ∧ (pyStrip (pyStrip form.name) = pyStrip form.name
       ∧ pyStrip (pyStrip form.phone) = pyStrip form.phone
       ∧ pyStrip (pyStrip form.email) = pyStrip form.email
       ∧ pyStrip (pyStrip form.company) = pyStrip form.company
       ∧ pyStrip (pyStrip form.position) = pyStrip form.position
       ∧ pyStrip (pyStrip form.comment) = pyStrip form.comment)
    ∧ (pyStrip form.name ≠ "" ∧ pyStrip form.phone ≠ "" ∧ pyStrip form.email ≠ ""
       ∧ pyStrip form.company ≠ "" ∧ pyStrip form.position ≠ "")
    ∧ (¬ ∀ ch ∈ (pyStrip form.name).data, isPySpace ch = true)
    ∧ (¬ ∀ ch ∈ (pyStrip form.phone).data, isPySpace ch = true)
    ∧ (¬ ∀ ch ∈ (pyStrip form.email).data, isPySpace ch = true)
    ∧ (¬ ∀ ch ∈ (pyStrip form.company).data, isPySpace ch = true)
    ∧ (¬ ∀ ch ∈ (pyStrip form.position).data, isPySpace ch = true)
    ∧ (strftime now).length = 19 := by
  have hne : ∀ fld ∈ REQUIRED_FIELDS, fieldValue (stripForm form) fld ≠ "" := by
    intro fld hfld hval
    have hmem : fld ∈ requiredErrors (stripForm form) :=
      List.mem_filter.mpr ⟨hfld, by simp [hval]⟩
    simp [h] at hmem
  have hname : pyStrip form.name ≠ "" := by
    have := hne "name" (by simp [REQUIRED_FIELDS])
    simpa [fieldValue, stripForm] using this
  have hphone : pyStrip form.phone ≠ "" := by
    have := hne "phone" (by simp [REQUIRED_FIELDS])
    simpa [fieldValue, stripForm] using this
  have hemail : pyStrip form.email ≠ "" := by
    have := hne "email" (by simp [REQUIRED_FIELDS])
    simpa [fieldValue, stripForm] using this
  have hcompany : pyStrip form.company ≠ "" := by
    have := hne "company" (by simp [REQUIRED_FIELDS])
    simpa [fieldValue, stripForm] using this
  have hposition : pyStrip form.position ≠ "" := by
    have := hne "position" (by simp [REQUIRED_FIELDS])
    simpa [fieldValue, stripForm] using this
  refine ⟨?_, ?_, rfl, rfl,
    ⟨pyStrip_idem form.name, pyStrip_idem form.phone, pyStrip_idem form.email,
     pyStrip_idem form.company, pyStrip_idem form.position, pyStrip_idem form.comment⟩,
    ⟨hname, hphone, hemail, hcompany, hposition⟩,
    pyStrip_fix_not_space _ (pyStrip_idem form.name) hname,
    pyStrip_fix_not_space _ (pyStrip_idem form.phone) hphone,
    pyStrip_fix_not_space _ (pyStrip_idem form.email) hemail,
    pyStrip_fix_not_space _ (pyStrip_idem form.company) hcompany,
    pyStrip_fix_not_space _ (pyStrip_idem form.position) hposition,
    (strftime_shape now).1⟩
  · intro db fs htb
    simp [submit, h, save_response, htb]
  · intro c fs
    simp [submit, h]

/-- Claim C9, witness. -/
theorem C9_persisted_record_witness :
    requiredErrors (stripForm
        ⟨" 田中 ", "03-1234-5678", "a@b.com", "Acme", "CEO", " feedback "⟩) = []
    ∧ submit false ⟨" 田中 ", "03-1234-5678", "a@b.com", "Acme", "CEO", " feedback "⟩
        ⟨2024, 3, 7, 9, 5, 30⟩ ConnAttempt.noConn ⟨none, none⟩
      = Except.ok (SubmitResult.redirectThanks, ConnAttempt.noConn,
          save_response_csv ⟨none, none⟩ (rowOfValues ⟨2024, 3, 7, 9, 5, 30⟩
            (stripForm ⟨" 田中 ", "03-1234-5678", "a@b.com", "Acme", "CEO", " feedback "⟩))) :=
  ⟨by decide,
   (C9_persisted_record ⟨" 田中 ", "03-1234-5678", "a@b.com", "Acme", "CEO", " feedback "⟩
      ⟨2024, 3, 7, 9, 5, 30⟩ (by decide)).2.1 ConnAttempt.noConn ⟨none, none⟩⟩

end Survey
